import Mathlib

/-!
Verification of the elefren Mastodon client's pagination/dispatch core.

The definitions below are a shallow embedding of the Rust source:
  * `deserialise_blocking` embeds `src/util.rs` (`deserialise_blocking`),
    identical in algorithm to `deserialise` in `src/lib.rs`;
  * `Mastodon.getOp`/`postOp`/`deleteOp` embed the unchecked dispatcher
    methods `Mastodon::get/post/delete` of `src/mastodon.rs`;
  * `Mastodon.add_filter` embeds the status-checked path of
    `Mastodon::add_filter` (and its siblings `update_filter`,
    `update_credentials`, `media`) of `src/mastodon.rs`;
  * `MastodonBuilder.build`, `Mastodon.fromData` embed
    `MastodonBuilder::build` and `impl From<Data> for Mastodon`;
  * `set_ws_scheme`, `streamingRequestUrl`, `streamingConnectUrl` embed the
    URL construction of `Mastodon::streaming_user` and its siblings;
  * `StatusesRequest.to_querystring` embeds
    `StatusesRequest::to_querystring` of `src/lib.rs`;
  * `relationshipsUrl` embeds the URL construction of
    `Mastodon::relationships`;
  * the `Page` development (link-header parsing, `Page.new`, `next_page`,
    `prev_page`, `items_iter`) models the pagination cursor.

JSON parsing itself is performed by the external serde collaborator, so
decoders are parameters (`parseT`, `parseApi`): an attempt either yields a
value or a parse error, exactly the interface the Rust code consumes.
-/

/-- Structured API error body: a JSON object carrying an `error` field. -/
structure ApiError where
  error : String
deriving DecidableEq, Repr

/-- An opaque serde deserialisation failure, carrying its message. -/
structure SerdeError where
  msg : String
deriving DecidableEq, Repr

/-- The error enum of `src/errors.rs`, restricted to the variants the core
uses. -/
inductive Error where
  | Api : ApiError → Error
  | Client : Nat → Error
  | Server : Nat → Error
  | Serde : SerdeError → Error
  | MissingField : String → Error
  | Other : String → Error
deriving DecidableEq, Repr

/-- An HTTP response as the dispatcher sees it: status code plus raw body
bytes. -/
structure HttpResponse where
  status : Nat
  bytes : List Nat
deriving DecidableEq, Repr

/-- Embeds `reqwest::StatusCode::is_client_error`: 400..=499. -/
def isClientError (s : Nat) : Bool := 400 ≤ s && s ≤ 499

/-- Embeds `reqwest::StatusCode::is_server_error`: 500..=599. -/
def isServerError (s : Nat) : Bool := 500 ≤ s && s ≤ 599

/-- Embedding of `deserialise_blocking` from `src/util.rs` (same algorithm
as `deserialise` in `src/lib.rs`): try to parse the body bytes as `T`; on
failure try the same bytes as the API-error shape; if that also fails,
return the original error of the first attempt. -/
def deserialise_blocking {T : Type} (parseT : List Nat → Except SerdeError T)
    (parseApi : List Nat → Except SerdeError ApiError)
    (bytes : List Nat) : Except Error T :=
  match parseT bytes with
  | .ok t => .ok t
  | .error e =>
      match parseApi bytes with
      | .ok err => .error (.Api err)
      | .error _ => .error (.Serde e)

/-- Embedding of `Mastodon::get` in `src/mastodon.rs`: sends the request and
pipes the response straight into `deserialise_blocking`, with no status
check. The transport result is the `resp` argument. -/
def Mastodon.getOp {T : Type} (parseT : List Nat → Except SerdeError T)
    (parseApi : List Nat → Except SerdeError ApiError)
    (resp : HttpResponse) : Except Error T :=
  deserialise_blocking parseT parseApi resp.bytes

/-- Embedding of `Mastodon::post` in `src/mastodon.rs` (identical pipeline to
`get`: no status check before decoding). -/
def Mastodon.postOp {T : Type} (parseT : List Nat → Except SerdeError T)
    (parseApi : List Nat → Except SerdeError ApiError)
    (resp : HttpResponse) : Except Error T :=
  deserialise_blocking parseT parseApi resp.bytes

/-- Embedding of `Mastodon::delete` in `src/mastodon.rs` (identical pipeline
to `get`: no status check before decoding). -/
def Mastodon.deleteOp {T : Type} (parseT : List Nat → Except SerdeError T)
    (parseApi : List Nat → Except SerdeError ApiError)
    (resp : HttpResponse) : Except Error T :=
  deserialise_blocking parseT parseApi resp.bytes

/-- Embedding of `Mastodon::add_filter` in `src/mastodon.rs` (and of the
`route!` macro bodies in `src/lib.rs`): check the status for 4xx/5xx first
and only then decode the body. -/
def Mastodon.add_filter {T : Type} (parseT : List Nat → Except SerdeError T)
    (parseApi : List Nat → Except SerdeError ApiError)
    (resp : HttpResponse) : Except Error T :=
  if isClientError resp.status then
    .error (.Client resp.status)
  else if isServerError resp.status then
    .error (.Server resp.status)
  else
    deserialise_blocking parseT parseApi resp.bytes

/-- The `Data` struct of `src/lib.rs` (and `src/data.rs`): raw data about the
mastodon instance. -/
structure Data where
  base : String
  client_id : String
  client_secret : String
  redirect : String
  token : String
deriving DecidableEq, Repr

/-- The external `reqwest::Client`, opaque to the core; `Client.new` stands
for `Client::new()`. -/
structure Client where
  mk ::
deriving DecidableEq, Repr

/-- Embeds `Client::new()`. -/
def Client.new : Client := ⟨⟩

/-- The `Mastodon` struct of `src/mastodon.rs`: an HTTP client plus instance
data. -/
structure Mastodon where
  client : Client
  data : Data
deriving DecidableEq, Repr

/-- The `MastodonBuilder` struct of `src/mastodon.rs`. -/
structure MastodonBuilder where
  client : Option Client
  data : Option Data
deriving DecidableEq, Repr

/-- Embeds `impl Default for MastodonBuilder`: both fields `None`. -/
def MastodonBuilder.default : MastodonBuilder := ⟨none, none⟩

/-- Embeds `MastodonBuilder::data`: set the data field. -/
def MastodonBuilder.setData (b : MastodonBuilder) (d : Data) : MastodonBuilder :=
  ⟨b.client, some d⟩

/-- Embeds `MastodonBuilder::client`: set the client field. -/
def MastodonBuilder.setClient (b : MastodonBuilder) (c : Client) : MastodonBuilder :=
  ⟨some c, b.data⟩

/-- Embedding of `MastodonBuilder::build` in `src/mastodon.rs`: if data is
present, build the client (defaulting the HTTP client); otherwise fail with
`MissingField`. -/
def MastodonBuilder.build (b : MastodonBuilder) : Except Error Mastodon :=
  match b.data with
  | some data => .ok ⟨b.client.getD Client.new, data⟩
  | none => .error (.MissingField "missing field 'data'")

/-- Embedding of `impl From<Data> for Mastodon` in `src/mastodon.rs`: default
builder, set the data, build, and `.expect(..)`. A panic of `.expect` is
modelled as `none`. -/
def Mastodon.fromData (d : Data) : Option Mastodon :=
  match (MastodonBuilder.default.setData d).build with
  | .ok m => some m
  | .error _ => none

/-- A URL as manipulated by the streaming endpoints after parsing: scheme,
an opaque remainder (host and path), and the query pairs. -/
structure Url where
  scheme : String
  rest : String
  query : List (String × String)
deriving DecidableEq, Repr

/-- Embeds `url::Url::query_pairs_mut().append_pair(k, v)`. -/
def Url.append_pair (u : Url) (k v : String) : Url :=
  ⟨u.scheme, u.rest, u.query ++ [(k, v)]⟩

/-- The scheme-rewrite step shared by every `streaming_*` method of
`src/mastodon.rs`: `"http"` becomes `"ws"`, `"https"` becomes `"wss"`, and
any other scheme is rejected with `Error::Other`. -/
def set_ws_scheme (u : Url) : Except Error Url :=
  if u.scheme = "http" then .ok ⟨"ws", u.rest, u.query⟩
  else if u.scheme = "https" then .ok ⟨"wss", u.rest, u.query⟩
  else .error (.Other ("Bad URL scheme: " ++ u.scheme))

/-- The request URL each `streaming_*` method builds before resolving it:
the parsed streaming route with `access_token` and then the stream-selection
parameters appended as query pairs. -/
def streamingRequestUrl (streamingRoute : Url) (token : String)
    (params : List (String × String)) : Url :=
  params.foldl (fun u p => u.append_pair p.1 p.2)
    (streamingRoute.append_pair "access_token" token)

/-- The shared URL-construction path of the `streaming_*` methods of
`src/mastodon.rs`: build the request URL, resolve it through the blocking
GET (redirect following, modelled by the `resolve` oracle), then rewrite the
scheme to ws/wss. -/
def streamingConnectUrl (resolve : Url → Url) (streamingRoute : Url)
    (token : String) (params : List (String × String)) : Except Error Url :=
  set_ws_scheme (resolve (streamingRequestUrl streamingRoute token params))

/-- Embeds `Mastodon::streaming_user`. -/
def streaming_user (resolve : Url → Url) (streamingRoute : Url)
    (token : String) : Except Error Url :=
  streamingConnectUrl resolve streamingRoute token [("stream", "user")]

/-- Embeds `Mastodon::streaming_public`. -/
def streaming_public (resolve : Url → Url) (streamingRoute : Url)
    (token : String) : Except Error Url :=
  streamingConnectUrl resolve streamingRoute token [("stream", "public")]

/-- Embeds `Mastodon::streaming_local`. -/
def streaming_local (resolve : Url → Url) (streamingRoute : Url)
    (token : String) : Except Error Url :=
  streamingConnectUrl resolve streamingRoute token [("stream", "public:local")]

/-- Embeds `Mastodon::streaming_public_hashtag`. -/
def streaming_public_hashtag (resolve : Url → Url) (streamingRoute : Url)
    (token : String) (hashtag : String) : Except Error Url :=
  streamingConnectUrl resolve streamingRoute token
    [("stream", "hashtag"), ("tag", hashtag)]

/-- Embeds `Mastodon::streaming_local_hashtag`. -/
def streaming_local_hashtag (resolve : Url → Url) (streamingRoute : Url)
    (token : String) (hashtag : String) : Except Error Url :=
  streamingConnectUrl resolve streamingRoute token
    [("stream", "hashtag:local"), ("tag", hashtag)]

/-- Embeds `Mastodon::streaming_list`. -/
def streaming_list (resolve : Url → Url) (streamingRoute : Url)
    (token : String) (list_id : String) : Except Error Url :=
  streamingConnectUrl resolve streamingRoute token
    [("stream", "list"), ("list", list_id)]

/-- Embeds `Mastodon::streaming_direct`. -/
def streaming_direct (resolve : Url → Url) (streamingRoute : Url)
    (token : String) : Except Error Url :=
  streamingConnectUrl resolve streamingRoute token [("stream", "direct")]

/-- The `StatusesRequest` struct of `src/lib.rs`. -/
structure StatusesRequest where
  only_media : Bool
  exclude_replies : Bool
  pinned : Bool
  max_id : Option String
  since_id : Option String
  limit : Option Nat
deriving DecidableEq, Repr

/-- Embeds `StatusesRequest::new` / `Default::default`. -/
def StatusesRequest.new : StatusesRequest := ⟨false, false, false, none, none, none⟩

/-- Embedding of `StatusesRequest::to_querystring` in `src/lib.rs`: push the
set options onto a vector in source order, then an empty string or a `?`
followed by the options joined with `&`. -/
def StatusesRequest.to_querystring (r : StatusesRequest) : String :=
  let opts : List String := []
  let opts := if r.only_media then opts ++ ["only_media=1"] else opts
  let opts := if r.exclude_replies then opts ++ ["exclude_replies=1"] else opts
  let opts := if r.pinned then opts ++ ["pinned=1"] else opts
  let opts := match r.max_id with
    | some m => opts ++ ["max_id=" ++ m]
    | none => opts
  let opts := match r.since_id with
    | some s => opts ++ ["since_id=" ++ s]
    | none => opts
  let opts := match r.limit with
    | some l => opts ++ ["limit=" ++ toString l]
    | none => opts
  if opts.isEmpty then "" else "?" ++ String.intercalate "&" opts

/-- Claim-side rendering of `to_querystring`, written from the claim's
words: the set options in the fixed order only_media, exclude_replies,
pinned, max_id, since_id, limit, booleans as `name=1`, joined with `&`
behind a `?`, and the empty string when no option is set. -/
def querystringSpec (r : StatusesRequest) : String :=
  let opts : List String :=
    (if r.only_media then ["only_media=1"] else []) ++
    (if r.exclude_replies then ["exclude_replies=1"] else []) ++
    (if r.pinned then ["pinned=1"] else []) ++
    (match r.max_id with | some m => ["max_id=" ++ m] | none => []) ++
    (match r.since_id with | some s => ["since_id=" ++ s] | none => []) ++
    (match r.limit with | some l => ["limit=" ++ toString l] | none => [])
  if opts = [] then "" else "?" ++ String.intercalate "&" opts

/-- Embedding of the URL construction of `Mastodon::relationships` in
`src/mastodon.rs` (identical in `src/lib.rs`), over character lists so that
`String::pop` is `List.dropLast`: start from `base ++
"/api/v1/accounts/relationships?"`; a single id appends `id=<id>`;
otherwise each id appends `id[]=<id>&` and the final character is popped. -/
def relationshipsUrl (base : List Char) (ids : List (List Char)) : List Char :=
  let url := base ++ "/api/v1/accounts/relationships?".toList
  if ids.length = 1 then
    url ++ "id=".toList ++ ids.headD []
  else
    (url ++ (ids.map (fun i => "id[]=".toList ++ i ++ ['&'])).flatten).dropLast

/-- Claim-side rendering of the multi-id query of `relationships`: the ids
rendered as `id[]=<id>` and joined with `&` (trailing `&` already
removed). -/
def ampJoin : List (List Char) → List Char
  | [] => []
  | [i] => "id[]=".toList ++ i
  | i :: j :: rest => "id[]=".toList ++ i ++ '&' :: ampJoin (j :: rest)

/-- The double-quote character, written by code so that header formats can
be built without embedding quotes in literals. -/
def quoteChar : Char := Char.ofNat 34

/-- Split a character list at every comma (comma-separated `Link` header
entries). -/
def splitOnComma : List Char → List (List Char)
  | [] => [[]]
  | c :: rest =>
    let r := splitOnComma rest
    if c = ',' then [] :: r
    else
      match r with
      | [] => [[c]]
      | h :: t => (c :: h) :: t

/-- Drop leading spaces. -/
def dropSpaces (l : List Char) : List Char := l.dropWhile (fun c => c == ' ')

/-- Trim spaces on both ends. -/
def trimSpaces (l : List Char) : List Char :=
  ((dropSpaces l).reverse.dropWhile (fun c => c == ' ')).reverse

/-- Modelled from the spec: one entry of the `Link` header, in the format
`<URL>; rel="name"` (spec sections 4.4 and 6; the parser itself lives in
`src/page.rs`, which is not part of the available sources). A malformed
entry yields `none`; a well-formed entry yields its URL and relation
name. -/
def parseEntry (l : List Char) : Option (List Char × List Char) :=
  match trimSpaces l with
  | '<' :: rest =>
    let url := rest.takeWhile (fun c => c ≠ '>')
    match rest.dropWhile (fun c => c ≠ '>') with
    | '>' :: rest2 =>
      match dropSpaces rest2 with
      | ';' :: rest3 =>
        let rest4 := dropSpaces rest3
        if rest4.take 4 = "rel=".toList then
          match rest4.drop 4 with
          | c :: rest5 =>
            if c = quoteChar then
              let relName := rest5.takeWhile (fun x => x ≠ quoteChar)
              match rest5.dropWhile (fun x => x ≠ quoteChar) with
              | q :: _ => if q = quoteChar then some (url, relName) else none
              | [] => none
            else none
          | [] => none
        else none
      | _ => none
    | _ => none
  | _ => none

/-- Modelled from the spec: the `Link`-header parser of `src/page.rs` (not
part of the available sources): split on commas, parse each entry, skip
malformed entries, and take the URLs of the `next` and `prev` relations;
all other relations are ignored. -/
def parseLinkHeader (h : List Char) : Option (List Char) × Option (List Char) :=
  let entries := (splitOnComma h).filterMap parseEntry
  ((entries.find? (fun e => e.2 == "next".toList)).map Prod.fst,
   (entries.find? (fun e => e.2 == "prev".toList)).map Prod.fst)

/-- A list-endpoint response as the pagination cursor sees it: the optional
`Link` header value and the already-decoded item batch. -/
structure Response (T : Type) where
  link : Option (List Char)
  body : List T
deriving DecidableEq, Repr

/-- Modelled from the spec: the `Page` pagination cursor of `src/page.rs`
(not part of the available sources): the current item batch and the
optional next/prev URLs taken from the `Link` header. -/
structure Page (T : Type) where
  items : List T
  next_url : Option (List Char)
  prev_url : Option (List Char)
deriving DecidableEq, Repr

/-- Modelled from the spec: `Page::new` (spec section 4.4): the batch comes
from the response body and the two URLs from the `Link` header; a missing
header means both are absent. -/
def Page.new {T : Type} (r : Response T) : Page T :=
  match r.link with
  | none => ⟨r.body, none, none⟩
  | some h => ⟨r.body, (parseLinkHeader h).1, (parseLinkHeader h).2⟩

/-- Modelled from the spec: `Page::next_page` (spec section 4.4). Returns
the updated cursor, the returned batch, and the list of URLs actually
requested from the server: an absent `next_url` returns an empty batch and
requests nothing; otherwise one GET to `next_url` replaces the batch and
both URLs from the new response. -/
def Page.next_page {T : Type} (server : List Char → Response T) (p : Page T) :
    Page T × List T × List (List Char) :=
  match p.next_url with
  | none => (p, [], [])
  | some u =>
    let p2 := Page.new (server u)
    (p2, p2.items, [u])

/-- Modelled from the spec: `Page::prev_page` (spec section 4.4), symmetric
to `next_page` using `prev_url`. -/
def Page.prev_page {T : Type} (server : List Char → Response T) (p : Page T) :
    Page T × List T × List (List Char) :=
  match p.prev_url with
  | none => (p, [], [])
  | some u =>
    let p2 := Page.new (server u)
    (p2, p2.items, [u])

/-- Forward traversal driving `next_page` repeatedly: the items of every
batch after the current one, in order, with fuel bounding the number of
advances. -/
def itemsIterAux {T : Type} (server : List Char → Response T) :
    Nat → Page T → List T
  | 0, _ => []
  | Nat.succ fuel, p =>
    match p.next_url with
    | none => []
    | some u =>
      let p2 := Page.new (server u)
      p2.items ++ itemsIterAux server fuel p2

/-- Modelled from the spec: the lazy all-items sequence `items_iter` (spec
section 4.4): the current batch followed by every later batch, flattened in
order, stopping at the first page with no `next_url`. -/
def Page.items_iter {T : Type} (server : List Char → Response T) (fuel : Nat)
    (p : Page T) : List T :=
  p.items ++ itemsIterAux server fuel p

/-- The pages reachable from `p` form a finite chain whose successive
batches are `bs`: either `p` has no next URL and no further batch exists,
or following `next_url` yields a response whose body heads `bs`. -/
inductive Yields {T : Type} (server : List Char → Response T) :
    Page T → List (List T) → Prop
  | last (p : Page T) : p.next_url = none → Yields server p []
  | step (p : Page T) (u : List Char) (bs : List (List T)) :
      p.next_url = some u →
      Yields server (Page.new (server u)) bs →
      Yields server p ((server u).body :: bs)

/-- Claim C1: the claim asserts that every dispatcher operation short-circuits
4xx/5xx statuses to `Error::Client`/`Error::Server` without decoding the
body. The code contradicts this on the `get`/`post`/`delete` paths: at a 404
response whose body is a well-formed API error, those operations decode the
body and return `Error::Api`, not `Error::Client(404)`, while the checked
`add_filter` path returns `Error::Client(404)` as the claim demands. -/
theorem c1_dispatch_decodes_4xx_body :
    let parseT : List Nat → Except SerdeError Unit :=
      fun _ => .error ⟨"data did not match any variant"⟩
    let parseApi : List Nat → Except SerdeError ApiError :=
      fun _ => .ok ⟨"Record not found"⟩
    let resp : HttpResponse := ⟨404, [123, 125]⟩
    Mastodon.getOp parseT parseApi resp = .error (.Api ⟨"Record not found"⟩) ∧
    Mastodon.getOp parseT parseApi resp ≠ .error (.Client 404) ∧
    Mastodon.postOp parseT parseApi resp = .error (.Api ⟨"Record not found"⟩) ∧
    Mastodon.deleteOp parseT parseApi resp = .error (.Api ⟨"Record not found"⟩) ∧
    Mastodon.add_filter parseT parseApi resp = .error (.Client 404) := by
  refine ⟨rfl, ?_, rfl, rfl, rfl⟩
  intro h
  simp [Mastodon.getOp, deserialise_blocking] at h

/-- Claim C2: for every byte sequence, if the bytes parse into `T` the
decoder returns that value; otherwise, if the bytes parse into the
API-error shape, it returns `Error::Api` of that structured error; and if
both parses fail, it returns the original error of the first attempt, not
the second failure. -/
theorem c2_decode_fallback {T : Type} (parseT : List Nat → Except SerdeError T)
    (parseApi : List Nat → Except SerdeError ApiError) (bytes : List Nat) :
    (∀ t, parseT bytes = .ok t →
      deserialise_blocking parseT parseApi bytes = .ok t) ∧
    (∀ e, parseT bytes = .error e →
      (∀ a, parseApi bytes = .ok a →
        deserialise_blocking parseT parseApi bytes = .error (.Api a)) ∧
      (∀ e2, parseApi bytes = .error e2 →
        deserialise_blocking parseT parseApi bytes = .error (.Serde e))) := by
  constructor
  · intro t ht
    simp [deserialise_blocking, ht]
  · intro e he
    constructor
    · intro a ha
      simp [deserialise_blocking, he, ha]
    · intro e2 he2
      simp [deserialise_blocking, he, he2]

/-- Witness for C2: both parses fail on a concrete body and the surfaced
error is the first attempt's failure. -/
theorem c2_decode_fallback_witness :
    deserialise_blocking (fun _ => (.error ⟨"bad"⟩ : Except SerdeError Nat))
      (fun _ => .error ⟨"worse"⟩) [0] = .error (.Serde ⟨"bad"⟩) :=
  ((c2_decode_fallback (fun _ => (.error ⟨"bad"⟩ : Except SerdeError Nat))
      (fun _ => .error ⟨"worse"⟩) [0]).2 ⟨"bad"⟩ rfl).2 ⟨"worse"⟩ rfl

/-- Claim C7: `MastodonBuilder::build` fails with `MissingField` exactly when
no data was set (and with that exact error), succeeds with a defaulted HTTP
client when data is set even without a client, and `Mastodon::from(data)`
consequently succeeds (returns a value, does not panic) for every data
value. -/
theorem c7_builder_missing_field :
    (∀ b : MastodonBuilder, (∃ e, b.build = .error e) ↔ b.data = none) ∧
    (∀ b : MastodonBuilder, b.data = none →
      b.build = .error (.MissingField "missing field 'data'")) ∧
    (∀ (c : Option Client) (d : Data),
      (MastodonBuilder.mk c (some d)).build = .ok ⟨c.getD Client.new, d⟩) ∧
    (∀ d : Data, Mastodon.fromData d = some ⟨Client.new, d⟩) := by
  refine ⟨fun b => ?_, fun b hb => ?_, fun c d => rfl, fun d => rfl⟩
  · obtain ⟨c, dOpt⟩ := b
    cases dOpt <;> simp [MastodonBuilder.build]
  · obtain ⟨c, dOpt⟩ := b
    cases hb
    rfl

/-- Witness for C7: the default builder fails with the missing-data error,
and building from a concrete data value succeeds. -/
theorem c7_builder_missing_field_witness :
    MastodonBuilder.default.build = .error (.MissingField "missing field 'data'") ∧
    Mastodon.fromData ⟨"https://example.com", "i", "s", "r", "t"⟩ =
      some ⟨Client.new, ⟨"https://example.com", "i", "s", "r", "t"⟩⟩ :=
  ⟨c7_builder_missing_field.2.1 MastodonBuilder.default rfl,
   c7_builder_missing_field.2.2.2 ⟨"https://example.com", "i", "s", "r", "t"⟩⟩

/-- Claim C9: `to_querystring` is the empty string when no option is set and
otherwise `?` followed by the set options joined with `&` in the fixed
order only_media, exclude_replies, pinned, max_id, since_id, limit, with
boolean flags rendered as `name=1`; in particular a request with
only_media, pinned and since_id `foo` yields
`?only_media=1&pinned=1&since_id=foo`. -/
theorem c9_to_querystring :
    (∀ r : StatusesRequest, r.to_querystring = querystringSpec r) ∧
    StatusesRequest.new.to_querystring = "" ∧
    (StatusesRequest.mk true false true none (some "foo") none).to_querystring =
      "?only_media=1&pinned=1&since_id=foo" := by
  refine ⟨fun r => ?_, by decide, by decide⟩
  obtain ⟨om, er, pin, mi, si, li⟩ := r
  cases om <;> cases er <;> cases pin <;> cases mi <;> cases si <;> cases li <;> rfl

/-- The flattened per-id fragments of the multi-id relationships query equal
the `&`-joined form followed by one trailing `&`. -/
theorem flatten_amp_eq (a : List Char) (rest : List (List Char)) :
    ((a :: rest).map (fun i => "id[]=".toList ++ i ++ ['&'])).flatten =
      ampJoin (a :: rest) ++ ['&'] := by
  induction rest generalizing a with
  | nil => simp [ampJoin]
  | cons b rest ih =>
      simp only [List.map_cons, List.flatten_cons] at ih ⊢
      rw [ih b]
      simp [ampJoin]

/-- Claim C10: the relationships URL ends in `?id=<id>` for a single id, in
the `&`-joined `id[]=` fragments (with the trailing `&` removed) for two or
more ids, and for the empty id list the popped character is the `?` itself,
leaving `/api/v1/accounts/relationships` with no query string. -/
theorem c10_relationships_url :
    (∀ (base : List Char) (id : List Char), relationshipsUrl base [id] =
      base ++ "/api/v1/accounts/relationships?id=".toList ++ id) ∧
    (∀ base : List Char, relationshipsUrl base [] =
      base ++ "/api/v1/accounts/relationships".toList) ∧
    (∀ (base : List Char) (a b : List Char) (rest : List (List Char)),
      relationshipsUrl base (a :: b :: rest) =
        base ++ "/api/v1/accounts/relationships?".toList ++
          ampJoin (a :: b :: rest)) := by
  refine ⟨fun base id => ?_, fun base => ?_, fun base a b rest => ?_⟩
  · show (base ++ "/api/v1/accounts/relationships?".toList) ++ "id=".toList ++ id = _
    rw [show "/api/v1/accounts/relationships?id=".toList =
      "/api/v1/accounts/relationships?".toList ++ "id=".toList from rfl]
    simp [List.append_assoc]
  · show ((base ++ "/api/v1/accounts/relationships?".toList) ++ []).dropLast = _
    rw [List.append_nil]
    rw [show "/api/v1/accounts/relationships?".toList =
      "/api/v1/accounts/relationships".toList ++ ['?'] from rfl]
    rw [← List.append_assoc, List.dropLast_concat]
  · show ((base ++ "/api/v1/accounts/relationships?".toList) ++
      ((a :: b :: rest).map (fun i => "id[]=".toList ++ i ++ ['&'])).flatten).dropLast = _
    rw [flatten_amp_eq, ← List.append_assoc, List.dropLast_concat, List.append_assoc]

/-- Folding `append_pair` over a parameter list leaves scheme and remainder
unchanged and appends the parameters to the query. -/
theorem foldl_append_pair (params : List (String × String)) (u : Url) :
    params.foldl (fun v p => v.append_pair p.1 p.2) u =
      ⟨u.scheme, u.rest, u.query ++ params⟩ := by
  induction params generalizing u with
  | nil => simp
  | cons p ps ih =>
      rw [List.foldl_cons, ih]
      simp [Url.append_pair, List.append_assoc]

/-- Claim C8: on every streaming URL-construction path the bearer token is
attached as an `access_token` query parameter, the resolved URL's scheme is
rewritten from `http` to `ws` and from `https` to `wss`, and any other
resolved scheme yields an error instead of a connection; every
`streaming_*` method goes through this one path. -/
theorem c8_streaming_scheme_rewrite :
    (∀ (streamingRoute : Url) (token : String) (params : List (String × String)),
      ("access_token", token) ∈ (streamingRequestUrl streamingRoute token params).query) ∧
    (∀ (resolve : Url → Url) (streamingRoute : Url) (token : String)
        (params : List (String × String)) (u : Url),
      resolve (streamingRequestUrl streamingRoute token params) = u →
      (u.scheme = "http" →
        streamingConnectUrl resolve streamingRoute token params =
          .ok ⟨"ws", u.rest, u.query⟩) ∧
      (u.scheme = "https" →
        streamingConnectUrl resolve streamingRoute token params =
          .ok ⟨"wss", u.rest, u.query⟩) ∧
      (u.scheme ≠ "http" → u.scheme ≠ "https" →
        streamingConnectUrl resolve streamingRoute token params =
          .error (.Other ("Bad URL scheme: " ++ u.scheme)))) ∧
    (∀ (resolve : Url → Url) (streamingRoute : Url) (token hashtag list_id : String),
      streaming_user resolve streamingRoute token =
        streamingConnectUrl resolve streamingRoute token [("stream", "user")] ∧
      streaming_public resolve streamingRoute token =
        streamingConnectUrl resolve streamingRoute token [("stream", "public")] ∧
      streaming_local resolve streamingRoute token =
        streamingConnectUrl resolve streamingRoute token [("stream", "public:local")] ∧
      streaming_public_hashtag resolve streamingRoute token hashtag =
        streamingConnectUrl resolve streamingRoute token
          [("stream", "hashtag"), ("tag", hashtag)] ∧
      streaming_local_hashtag resolve streamingRoute token hashtag =
        streamingConnectUrl resolve streamingRoute token
          [("stream", "hashtag:local"), ("tag", hashtag)] ∧
      streaming_list resolve streamingRoute token list_id =
        streamingConnectUrl resolve streamingRoute token
          [("stream", "list"), ("list", list_id)] ∧
      streaming_direct resolve streamingRoute token =
        streamingConnectUrl resolve streamingRoute token [("stream", "direct")]) := by
  refine ⟨fun r token params => ?_, fun resolve r token params u hu => ?_,
    fun _ _ _ _ _ => ⟨rfl, rfl, rfl, rfl, rfl, rfl, rfl⟩⟩
  · rw [streamingRequestUrl, foldl_append_pair]
    simp [Url.append_pair]
  · subst hu
    refine ⟨fun h => ?_, fun h => ?_, fun h1 h2 => ?_⟩
    · simp [streamingConnectUrl, set_ws_scheme, h]
    · simp [streamingConnectUrl, set_ws_scheme, h]
    · simp [streamingConnectUrl, set_ws_scheme, h1, h2]

/-- Witness for C8: with an identity redirect resolver and an `https` base,
`streaming_user` yields the `wss` URL carrying the access token in the
query. -/
theorem c8_streaming_scheme_rewrite_witness :
    streaming_user id ⟨"https", "example.com/api/v1/streaming", []⟩ "tok" =
      .ok ⟨"wss", "example.com/api/v1/streaming",
        [("access_token", "tok"), ("stream", "user")]⟩ :=
  ((c8_streaming_scheme_rewrite.2.1 id ⟨"https", "example.com/api/v1/streaming", []⟩
    "tok" [("stream", "user")]
    ⟨"https", "example.com/api/v1/streaming",
      [("access_token", "tok"), ("stream", "user")]⟩ rfl).2.1 rfl)

/-- The batch of a fresh cursor is the response body, whatever the header. -/
theorem Page.new_items {T : Type} (r : Response T) : (Page.new r).items = r.body := by
  cases hr : r.link <;> simp [Page.new, hr]

/-- Claim C3: a response with no `Link` header yields a cursor with both
URLs absent, and both `next_page` and `prev_page` on that cursor return an
empty batch, leave the cursor unchanged, and request nothing. -/
theorem c3_pagination_termination {T : Type} (server : List Char → Response T)
    (resp : Response T) (h : resp.link = none) :
    Page.new resp = ⟨resp.body, none, none⟩ ∧
    Page.next_page server (Page.new resp) = (Page.new resp, [], []) ∧
    Page.prev_page server (Page.new resp) = (Page.new resp, [], []) := by
  have hp : Page.new resp = ⟨resp.body, none, none⟩ := by
    simp [Page.new, h]
  refine ⟨hp, ?_, ?_⟩ <;> rw [hp] <;> rfl

/-- Witness for C3: a concrete header-less response terminates pagination. -/
theorem c3_pagination_termination_witness :
    Page.next_page (fun _ => (⟨none, []⟩ : Response Nat)) (Page.new ⟨none, [1, 2]⟩) =
      (Page.new ⟨none, [1, 2]⟩, [], []) :=
  (c3_pagination_termination (fun _ => (⟨none, []⟩ : Response Nat)) ⟨none, [1, 2]⟩ rfl).2.1

/-- Claim C4: when page A advertises page B as `next` and page B advertises
page A as `prev`, calling `next_page` and then `prev_page` on the cursor
built from A restores A's original item batch. -/
theorem c4_pagination_round_trip {T : Type} (server : List Char → Response T)
    (respA respB : Response T) (uA uB : List Char)
    (hB : server uB = respB) (hA : server uA = respA)
    (hnext : (Page.new respA).next_url = some uB)
    (hprev : (Page.new respB).prev_url = some uA) :
    (Page.prev_page server (Page.next_page server (Page.new respA)).1).1.items =
      respA.body ∧
    (Page.prev_page server (Page.next_page server (Page.new respA)).1).2.1 =
      respA.body := by
  have h1 : (Page.next_page server (Page.new respA)).1 = Page.new respB := by
    simp [Page.next_page, hnext, hB]
  have h2 : (Page.prev_page server (Page.new respB)).1 = Page.new respA := by
    simp [Page.prev_page, hprev, hA]
  have h3 : (Page.prev_page server (Page.new respB)).2.1 = (Page.new respA).items := by
    simp [Page.prev_page, hprev, hA]
  rw [h1, h2, h3, Page.new_items]
  exact ⟨rfl, rfl⟩

/-- Witness for C4: two concrete linked responses round-trip back to the
original batch. -/
theorem c4_pagination_round_trip_witness :
    (Page.prev_page
        (fun u => if u = "u2".toList then (⟨some "<u1>; rel=\"prev\"".toList, [3]⟩ : Response Nat)
          else ⟨some "<u2>; rel=\"next\"".toList, [1, 2]⟩)
        (Page.next_page
          (fun u => if u = "u2".toList then (⟨some "<u1>; rel=\"prev\"".toList, [3]⟩ : Response Nat)
            else ⟨some "<u2>; rel=\"next\"".toList, [1, 2]⟩)
          (Page.new ⟨some "<u2>; rel=\"next\"".toList, [1, 2]⟩)).1).1.items = [1, 2] :=
  (c4_pagination_round_trip
    (fun u => if u = "u2".toList then (⟨some "<u1>; rel=\"prev\"".toList, [3]⟩ : Response Nat)
      else ⟨some "<u2>; rel=\"next\"".toList, [1, 2]⟩)
    ⟨some "<u2>; rel=\"next\"".toList, [1, 2]⟩
    ⟨some "<u1>; rel=\"prev\"".toList, [3]⟩
    "u1".toList "u2".toList (by decide) (by decide) (by decide) (by decide)).1

/-- With enough fuel, the forward traversal of a finite page chain produces
exactly the flattening of its successive batches. -/
theorem itemsIterAux_of_yields {T : Type} (server : List Char → Response T)
    (p : Page T) (bs : List (List T)) (hy : Yields server p bs) :
    ∀ fuel, bs.length ≤ fuel → itemsIterAux server fuel p = bs.flatten := by
  induction hy with
  | last p hp =>
      intro fuel _
      cases fuel with
      | zero => rfl
      | succ f => simp [itemsIterAux, hp]
  | step p u bs hp hy ih =>
      intro fuel hf
      cases fuel with
      | zero => simp at hf
      | succ f =>
          simp only [itemsIterAux, hp]
          rw [ih f (by simpa using hf), Page.new_items]
          simp

/-- Claim C5: over a finite chain of pages with batches `bs`, the flattened
all-items sequence yields exactly the concatenation of all batches in
server order — the item count is the sum of the batch sizes — and once the
chain is exhausted larger fuel yields nothing further. -/
theorem c5_items_iter_exhaustion {T : Type} (server : List Char → Response T)
    (p : Page T) (bs : List (List T)) (hy : Yields server p bs)
    (fuel : Nat) (hf : bs.length ≤ fuel) :
    Page.items_iter server fuel p = p.items ++ bs.flatten ∧
    (Page.items_iter server fuel p).length =
      p.items.length + (bs.map List.length).sum := by
  have h := itemsIterAux_of_yields server p bs hy fuel hf
  constructor
  · rw [Page.items_iter, h]
  · rw [Page.items_iter, h]
    simp [List.length_append, List.length_flatten]

/-- Witness for C5: a concrete two-page chain is flattened into all five
items in order, with fuel larger than the chain length. -/
theorem c5_items_iter_exhaustion_witness :
    Page.items_iter
      (fun u => if u = "u2".toList then (⟨none, [3, 4, 5]⟩ : Response Nat)
        else ⟨some "<u2>; rel=\"next\"".toList, [1, 2]⟩)
      7 (Page.new ⟨some "<u2>; rel=\"next\"".toList, [1, 2]⟩) = [1, 2, 3, 4, 5] :=
  ((c5_items_iter_exhaustion
      (fun u => if u = "u2".toList then (⟨none, [3, 4, 5]⟩ : Response Nat)
        else ⟨some "<u2>; rel=\"next\"".toList, [1, 2]⟩)
      (Page.new ⟨some "<u2>; rel=\"next\"".toList, [1, 2]⟩)
      [[3, 4, 5]]
      (Yields.step _ ("u2".toList) [] (by decide)
        (Yields.last _ (by decide)))
      7 (by decide)).1).trans (by decide)

/-- Unfolding of `splitOnComma` at a non-comma head. -/
theorem splitOnComma_cons_ne (c : Char) (l : List Char) (hc : ¬c = ',') :
    splitOnComma (c :: l) =
      match splitOnComma l with
      | [] => [[c]]
      | h :: t => (c :: h) :: t := by
  simp [splitOnComma, if_neg hc]

/-- Splitting on commas never produces an empty list of entries. -/
theorem splitOnComma_ne_nil (l : List Char) : splitOnComma l ≠ [] := by
  induction l with
  | nil => simp [splitOnComma]
  | cons c rest ih =>
      by_cases hc : c = ','
      · simp [splitOnComma, hc]
      · simp only [splitOnComma, if_neg hc]
        cases hr : splitOnComma rest with
        | nil => exact absurd hr ih
        | cons h t => simp [hr]

/-- A comma-free entry splits into itself alone. -/
theorem splitOnComma_no_comma (e : List Char) (he : ',' ∉ e) :
    splitOnComma e = [e] := by
  induction e with
  | nil => rfl
  | cons c rest ih =>
      have hc : ¬c = ',' := fun h => he (h ▸ List.mem_cons_self c rest)
      have h2 : ',' ∉ rest := fun hm => he (List.mem_cons_of_mem c hm)
      simp [splitOnComma, if_neg hc, ih h2]

/-- Appending a comma and a comma-free entry appends exactly one entry to
the split. -/
theorem splitOnComma_append_entry (l e : List Char) (he : ',' ∉ e) :
    splitOnComma (l ++ ',' :: e) = splitOnComma l ++ [e] := by
  induction l with
  | nil => simp [splitOnComma, splitOnComma_no_comma e he]
  | cons c l ih =>
      by_cases hc : c = ','
      · subst hc
        simp [splitOnComma, ih]
      · obtain ⟨h0, t0, hs⟩ : ∃ h0 t0, splitOnComma l = h0 :: t0 := by
          cases hsp : splitOnComma l with
          | nil => exact absurd hsp (splitOnComma_ne_nil l)
          | cons a b => exact ⟨a, b, rfl⟩
        rw [List.cons_append, splitOnComma_cons_ne c (l ++ ',' :: e) hc,
          splitOnComma_cons_ne c l hc, ih, hs]
        rfl

/-- Appending an element that fails the predicate does not change `find?`. -/
theorem find?_append_not {α : Type} (p : α → Bool) (xs : List α) (y : α)
    (hy : p y = false) : (xs ++ [y]).find? p = xs.find? p := by
  induction xs with
  | nil => simp [List.find?, hy]
  | cons x xs ih =>
      cases hx : p x <;> simp [List.find?_cons, hx, ih]

/-- Claim C6: the link-header parser maps the concrete two-entry header to
its `next` and `prev` URLs; appending a malformed entry, or an entry with a
relation other than `next`/`prev`, to any header leaves the parse result
unchanged (skipped or ignored, never a failure). -/
theorem c6_link_header_parsing :
    parseLinkHeader
      ("<https://example.com/api/v1/x?page=2>; rel=\"next\", <https://example.com/api/v1/x?page=1>; rel=\"prev\"".toList) =
      (some "https://example.com/api/v1/x?page=2".toList,
       some "https://example.com/api/v1/x?page=1".toList) ∧
    (∀ h e : List Char, ',' ∉ e → parseEntry e = none →
      parseLinkHeader (h ++ ',' :: e) = parseLinkHeader h) ∧
    (∀ (h e u r : List Char), ',' ∉ e → parseEntry e = some (u, r) →
      r ≠ "next".toList → r ≠ "prev".toList →
      parseLinkHeader (h ++ ',' :: e) = parseLinkHeader h) := by
  refine ⟨by decide, fun h e hce hpe => ?_, fun h e u r hce hpe hrn hrp => ?_⟩
  · have hent : (splitOnComma (h ++ ',' :: e)).filterMap parseEntry =
        (splitOnComma h).filterMap parseEntry := by
      rw [splitOnComma_append_entry h e hce, List.filterMap_append]
      simp [hpe]
    simp [parseLinkHeader, hent]
  · have hent : (splitOnComma (h ++ ',' :: e)).filterMap parseEntry =
        (splitOnComma h).filterMap parseEntry ++ [(u, r)] := by
      rw [splitOnComma_append_entry h e hce, List.filterMap_append]
      simp [hpe]
    have hn : (fun x : List Char × List Char => x.2 == "next".toList) (u, r) = false := by
      simpa using hrn
    have hp : (fun x : List Char × List Char => x.2 == "prev".toList) (u, r) = false := by
      simpa using hrp
    simp only [parseLinkHeader, hent]
    rw [find?_append_not (fun x : List Char × List Char => x.2 == "next".toList)
        ((splitOnComma h).filterMap parseEntry) (u, r) hn,
      find?_append_not (fun x : List Char × List Char => x.2 == "prev".toList)
        ((splitOnComma h).filterMap parseEntry) (u, r) hp]

/-- Witness for C6: appending a `rel="self"` entry to the concrete two-entry
header leaves its parse unchanged. -/
theorem c6_link_header_parsing_witness :
    parseLinkHeader
      ("<https://example.com/api/v1/x?page=2>; rel=\"next\", <https://example.com/api/v1/x?page=1>; rel=\"prev\"".toList
        ++ ',' :: "<https://example.com/api/v1/x>; rel=\"self\"".toList) =
      parseLinkHeader
        ("<https://example.com/api/v1/x?page=2>; rel=\"next\", <https://example.com/api/v1/x?page=1>; rel=\"prev\"".toList) :=
  c6_link_header_parsing.2.2
    ("<https://example.com/api/v1/x?page=2>; rel=\"next\", <https://example.com/api/v1/x?page=1>; rel=\"prev\"".toList)
    ("<https://example.com/api/v1/x>; rel=\"self\"".toList)
    ("https://example.com/api/v1/x".toList) ("self".toList)
    (by decide) (by decide) (by decide) (by decide)
